import Mathlib

/-!
Shallow embedding of the IIrs reverse-geofencing service, from
src/app.py (the locate endpoint) and src/utils/geo_utils.py.
Coordinates are modelled as exact rationals, Python floats as a small
inductive of finite rationals plus the non-finite values, and the
shapely containment predicate as the standard crossing-number
point-in-polygon interior test.
-/

set_option allowUnsafeReducibility true in
attribute [semireducible] Rat.add Rat.mul Rat.inv Rat.sub Rat.div Rat.ofScientific

namespace IIrs

/-- Model of a parsed CPython float value: either a finite rational or one of
the non-finite values nan, inf and negative inf. Rationals stand in for IEEE
doubles; decimal literals are taken at their exact value. -/
inductive PyFloat where
  | finite : ℚ → PyFloat
  | nan : PyFloat
  | inf : PyFloat
  | ninf : PyFloat
deriving DecidableEq, Repr

/-- Models the IEEE comparison x less-or-equal y used by the chained Python
comparisons in app.py line 88: any comparison with nan is false, the
infinities compare in the usual order, finite values compare as rationals. -/
def pyLe : PyFloat → PyFloat → Bool
  | PyFloat.nan, _ => false
  | _, PyFloat.nan => false
  | PyFloat.ninf, _ => true
  | PyFloat.finite _, PyFloat.inf => true
  | PyFloat.inf, PyFloat.inf => true
  | PyFloat.inf, _ => false
  | PyFloat.finite a, PyFloat.finite b => decide (a ≤ b)
  | PyFloat.finite _, PyFloat.ninf => false

/-- True exactly on the finite values of the float model. -/
def PyFloat.isFinite : PyFloat → Bool
  | PyFloat.finite _ => true
  | _ => false

/-- Characters treated as surrounding whitespace by the float parse model. -/
def isSpace (c : Char) : Bool :=
  c == ' ' || c == '\t' || c == '\n' || c == '\r' || c == '\x0b' || c == '\x0c'

/-- Drops leading and trailing whitespace, modelling the strip that the
CPython float constructor performs on its string argument. -/
def trimList (cs : List Char) : List Char :=
  ((cs.dropWhile isSpace).reverse.dropWhile isSpace).reverse

/-- Splits a character list into its longest prefixed run of decimal digits
and the remainder. -/
def takeDigits : List Char → List Char × List Char
  | [] => ([], [])
  | c :: cs =>
    if c.isDigit then
      let p := takeDigits cs
      (c :: p.1, p.2)
    else ([], c :: cs)

/-- Value of a digit string read in base ten. -/
def digitsToNat (ds : List Char) : ℕ :=
  ds.foldl (fun a c => 10 * a + (c.toNat - 48)) 0

/-- Parses an exponent suffix (after the letter e): an optional sign followed
by at least one digit, consuming the whole remainder. -/
def parseExpPart : List Char → Option ℤ
  | '+' :: r =>
    let p := takeDigits r
    if p.1.isEmpty || !p.2.isEmpty then none else some (digitsToNat p.1 : ℤ)
  | '-' :: r =>
    let p := takeDigits r
    if p.1.isEmpty || !p.2.isEmpty then none else some (-(digitsToNat p.1 : ℤ))
  | cs =>
    let p := takeDigits cs
    if p.1.isEmpty || !p.2.isEmpty then none else some (digitsToNat p.1 : ℤ)

/-- Rational power of ten with natural exponent, written out by recursion so
that concrete instances evaluate. -/
def pow10 : ℕ → ℚ
  | 0 => 1
  | n + 1 => 10 * pow10 n

/-- Scales a rational by a signed power of ten, as an exponent suffix does. -/
def scale10 (q : ℚ) : ℤ → ℚ
  | Int.ofNat n => q * pow10 n
  | Int.negSucc n => q / pow10 (n + 1)

/-- Parses an unsigned decimal number: digits with an optional fractional
part and an optional exponent, requiring at least one digit in the mantissa.
Models the numeric forms accepted by the CPython float constructor (digit
group underscores are not modelled). -/
def parseNumber (cs : List Char) : Option ℚ :=
  let ip := takeDigits cs
  let m : ℚ × List Char × Bool :=
    match ip.2 with
    | '.' :: r2 =>
      let fp := takeDigits r2
      ((digitsToNat ip.1 : ℚ) + (digitsToNat fp.1 : ℚ) / pow10 fp.1.length,
        fp.2, !(ip.1.isEmpty && fp.1.isEmpty))
    | r1 => ((digitsToNat ip.1 : ℚ), r1, !ip.1.isEmpty)
  if !m.2.2 then none
  else
    match m.2.1 with
    | [] => some m.1
    | 'e' :: er =>
      match parseExpPart er with
      | some e => some (scale10 m.1 e)
      | none => none
    | _ => none

/-- Parses an unsigned lowercased float body: nan, inf, infinity or a
decimal number. -/
def pyFloatCore (cs : List Char) : Option PyFloat :=
  if cs = ['n', 'a', 'n'] then some PyFloat.nan
  else if cs = ['i', 'n', 'f'] || cs = ['i', 'n', 'f', 'i', 'n', 'i', 't', 'y'] then
    some PyFloat.inf
  else (parseNumber cs).map PyFloat.finite

/-- Models the CPython float constructor applied to a string, as used at
app.py lines 79 and 80: surrounding whitespace is stripped, the case of the
word forms is ignored, an optional sign precedes the body, and failure to
parse corresponds to the ValueError caught there. -/
def pyFloat (s : String) : Option PyFloat :=
  let cs := (trimList s.toList).map Char.toLower
  match cs with
  | '+' :: r => pyFloatCore r
  | '-' :: r =>
    match pyFloatCore r with
    | some (PyFloat.finite q) => some (PyFloat.finite (-q))
    | some PyFloat.inf => some PyFloat.ninf
    | some x => some x
    | none => none
  | r => pyFloatCore r

/-- Extracts the rational from a float value; only applied in locate after
the range check, which admits finite values alone. -/
def pyToRat : PyFloat → ℚ
  | PyFloat.finite q => q
  | _ => 0

/-- A point in the plane, as (x = longitude, y = latitude). -/
abbrev Pt := ℚ × ℚ

/-- A ring: a closed vertex sequence (first vertex equal to the last). -/
abbrev Ring := List Pt

/-- A polygon: the first ring is the outer boundary, the rest are holes. -/
abbrev Poly := List Ring

/-- The edges of a ring: consecutive vertex pairs. -/
def ringEdges (r : Ring) : List (Pt × Pt) := r.zip r.tail

/-- Whether the edge straddles the horizontal line at height py, with the
half-open convention that makes vertex hits count exactly once. -/
def straddles (py : ℚ) (e : Pt × Pt) : Bool :=
  decide (e.1.2 > py) != decide (e.2.2 > py)

/-- Abscissa at which the edge meets the horizontal line at height py. -/
def xIntersect (e : Pt × Pt) (py : ℚ) : ℚ :=
  e.1.1 + (e.2.1 - e.1.1) * (py - e.1.2) / (e.2.2 - e.1.2)

/-- Whether the rightward horizontal ray from p properly crosses the edge:
the standard crossing-number test. -/
def edgeCrossing (p : Pt) (e : Pt × Pt) : Bool :=
  straddles p.2 e && decide (p.1 < xIntersect e p.2)

/-- Even-odd inclusion of a point in a ring: odd number of ray crossings. -/
def inRingEvenOdd (p : Pt) (r : Ring) : Bool :=
  (ringEdges r).countP (edgeCrossing p) % 2 == 1

/-- Whether p lies exactly on the closed segment e. -/
def onSegment (p : Pt) (e : Pt × Pt) : Bool :=
  decide ((e.2.1 - e.1.1) * (p.2 - e.1.2) = (e.2.2 - e.1.2) * (p.1 - e.1.1)) &&
  decide (min e.1.1 e.2.1 ≤ p.1) && decide (p.1 ≤ max e.1.1 e.2.1) &&
  decide (min e.1.2 e.2.2 ≤ p.2) && decide (p.2 ≤ max e.1.2 e.2.2)

/-- Whether p lies exactly on some edge (or vertex) of the ring. -/
def onRing (p : Pt) (r : Ring) : Bool := (ringEdges r).any (onSegment p)

/-- Whether p lies on the boundary of the polygon: on any of its rings. -/
def polyOnBoundary (poly : Poly) (p : Pt) : Bool := poly.any (onRing p)

/-- Models the GEOS containment test behind the shapely predicate
gdf.contains(point) used at app.py line 100: a point is contained exactly
when it lies in the interior of the polygon, that is strictly inside the
outer ring and strictly outside every hole; a point on the boundary of any
ring is NOT contained (shapely contains excludes the boundary). -/
def polyContains (poly : Poly) (p : Pt) : Bool :=
  match poly with
  | [] => false
  | outer :: holes =>
    if polyOnBoundary (outer :: holes) p then false
    else inRingEvenOdd p outer && holes.all (fun h => !inRingEvenOdd p h)

/-- Axis-aligned bounding box of a geometry. -/
structure BBox where
  minLon : ℚ
  minLat : ℚ
  maxLon : ℚ
  maxLat : ℚ
deriving DecidableEq, Repr

/-- All vertices of a polygon, across all of its rings. -/
def polyVerts (poly : Poly) : List Pt := poly.flatten

/-- One step of the bounding-box accumulation: widen the box to cover w. -/
def bboxStep (bb : BBox) (w : Pt) : BBox :=
  ⟨min bb.minLon w.1, min bb.minLat w.2, max bb.maxLon w.1, max bb.maxLat w.2⟩

/-- Tight envelope of all vertices of the polygon (degenerate box at the
origin for an empty vertex list). -/
def polyBBox (poly : Poly) : BBox :=
  match polyVerts poly with
  | [] => ⟨0, 0, 0, 0⟩
  | v :: vs => vs.foldl bboxStep ⟨v.1, v.2, v.1, v.2⟩

/-- Whether the point lies inside the (closed) bounding box. -/
def inBBox (p : Pt) (bb : BBox) : Bool :=
  decide (bb.minLon ≤ p.1) && decide (p.1 ≤ bb.maxLon) &&
  decide (bb.minLat ≤ p.2) && decide (p.2 ≤ bb.maxLat)

/-- One row of the loaded GeoDataFrame: its geometry and its non-geometry
columns as (column name, string value) pairs in dataframe column order. A
geometry of none models a malformed record whose containment test raises,
the failure caught by the handler at app.py lines 150 to 154. -/
structure PolyRecord where
  geom : Option Poly
  attrs : List (String × String)
deriving DecidableEq, Repr

/-- The loaded GeoDataFrame gdf of app.py: its column names (shared by all
rows, including the geometry column) and its rows in load order; the row
position is the stable insertion id. -/
structure GeoDataFrame where
  cols : List String
  rows : List PolyRecord
deriving DecidableEq, Repr

/-- Containment of a point by one record, when its geometry is well formed. -/
def recContains (r : PolyRecord) (p : Pt) : Bool :=
  match r.geom with
  | some poly => polyContains poly p
  | none => false

/-- Models matches = gdf[gdf.contains(point)] at app.py line 100: the rows
whose geometry contains the point, in row order. The boolean mask is
computed for every row, so a single malformed record makes the whole
expression raise, which the model returns as an error. -/
def gdfContains (rows : List PolyRecord) (p : Pt) : Except Unit (List PolyRecord) :=
  match rows with
  | [] => Except.ok []
  | r :: rest =>
    match r.geom with
    | none => Except.error ()
    | some poly =>
      match gdfContains rest p with
      | Except.error e => Except.error e
      | Except.ok ms => Except.ok (if polyContains poly p then r :: ms else ms)

/-- The aliases probed for the canonical state key, app.py line 131. -/
def stateAliases : List String :=
  ["state", "ST_NM", "NAME_1", "STATE", "State", "shape1"]

/-- The aliases probed for the canonical district key, app.py line 132. -/
def districtAliases : List String :=
  ["district", "DISTRICT", "NAME_2", "District"]

/-- The aliases probed for the canonical state code key, app.py line 133. -/
def stateCodeAliases : List String :=
  ["shapeiso", "ISO", "STATE_CODE"]

/-- The possible_names table of app.py lines 130 to 134, in source order. -/
def possibleNames : List (String × List String) :=
  [("state", stateAliases), ("district", districtAliases),
   ("state_code", stateCodeAliases)]

/-- Value of the first alias column present among the row columns, as the
inner loop of app.py lines 137 to 140 finds it. -/
def firstAlias (attrs : List (String × String)) : List String → Option String
  | [] => none
  | c :: rest =>
    match attrs.lookup c with
    | some v => some v
    | none => firstAlias attrs rest

/-- Overwrites the value at an existing key in place, keeping its position. -/
def dictSet (d : List (String × String)) (k v : String) : List (String × String) :=
  d.map (fun kv => if kv.1 = k then (k, v) else kv)

/-- Python dict assignment response[k] = v on an association list: overwrite
in place when the key exists, append otherwise. -/
def dictInsert (d : List (String × String)) (k v : String) : List (String × String) :=
  if d.any (fun kv => decide (kv.1 = k)) then dictSet d k v else d ++ [(k, v)]

/-- The canonical attribute fields built by the loop at app.py lines 136 to
140: for each canonical key, the value of its first present alias column. -/
def canonicalFields (attrs : List (String × String)) : List (String × String) :=
  possibleNames.foldl
    (fun resp kc =>
      match firstAlias attrs kc.2 with
      | some v => dictInsert resp kc.1 v
      | none => resp) []

/-- The fallback loop of app.py lines 143 to 146: dump every non-geometry
column of the row into the response. -/
def rawDump (resp : List (String × String)) (attrs : List (String × String)) :
    List (String × String) :=
  attrs.foldl
    (fun resp kv => if kv.1 = "geometry" then resp else dictInsert resp kv.1 kv.2)
    resp

/-- The attribute part of a success response, app.py lines 128 to 146: the
canonical fields, and additionally the raw column dump exactly when the
state key was not populated. -/
def buildFields (attrs : List (String × String)) : List (String × String) :=
  let resp := canonicalFields attrs
  if (resp.lookup "state").isSome then resp else rawDump resp attrs

/-- Insertion of a string into a sorted list, ascending. -/
def insertSorted (x : String) : List String → List String
  | [] => [x]
  | y :: ys => if x ≤ y then x :: y :: ys else y :: insertSorted x ys

/-- Ascending sort of a list of strings, modelling the Python sorted
builtin (on the distinct lists it is applied to, any sort agrees). -/
def sortStrings (l : List String) : List String := l.foldr insertSorted []

/-- Models the not-found diagnostics of app.py line 105: the sorted distinct
values of the raw shape1 column when that column exists, else the empty
list. -/
def availableStates (g : GeoDataFrame) : List String :=
  if "shape1" ∈ g.cols then
    sortStrings ((g.rows.map (fun r => (r.attrs.lookup "shape1").getD "")).eraseDups)
  else []

/-- The outcomes of the locate endpoint of app.py. Each constructor stands
for one of the literal response bodies: notLoaded for the 500 of lines 71
to 75, invalidParams for the 400 of lines 81 to 85 (missing or non-numeric
parameters), outOfRange for the 400 of lines 88 to 92, internalError for
the 500 of lines 150 to 154, notFound for the 404 of lines 103 to 114
(carrying echoed coordinates, the region count of its note string and the
available_regions list) and success for the 200 of lines 117 to 148
(carrying echoed coordinates and the attribute fields). The status and
coordinates members of the Python response dict are carried by the
constructor itself. -/
inductive Resp where
  | notLoaded : Resp
  | invalidParams : Resp
  | outOfRange : Resp
  | internalError : Resp
  | notFound : ℚ → ℚ → ℕ → List String → Resp
  | success : ℚ → ℚ → List (String × String) → Resp
deriving DecidableEq, Repr

/-- True exactly on the success outcome. -/
def isSuccess : Resp → Bool
  | Resp.success _ _ _ => true
  | _ => false

/-- True exactly on the two outcomes the spec admits for valid input. -/
def isSuccessOrNotFound : Resp → Bool
  | Resp.success _ _ _ => true
  | Resp.notFound _ _ _ _ => true
  | _ => false

/-- True on the outcomes that are decided by containment testing, that is
produced after input validation has passed. -/
def reachesContainment : Resp → Bool
  | Resp.success _ _ _ => true
  | Resp.notFound _ _ _ _ => true
  | Resp.internalError => true
  | _ => false

/-- The parameter parse step of app.py lines 78 to 85: both query arguments
are fetched (none models an absent parameter) and fed to float; any
TypeError or ValueError yields the invalid-parameters outcome, modelled by
a none result. -/
def parseArgs (latArg lonArg : Option String) : Option (PyFloat × PyFloat) :=
  match latArg.bind pyFloat, lonArg.bind pyFloat with
  | some lat, some lon => some (lat, lon)
  | _, _ => none

/-- The range check of app.py line 88: not (-90 <= lat <= 90) or
not (-180 <= lon <= 180), under IEEE comparison semantics. -/
def rangeBad (lat lon : PyFloat) : Bool :=
  !(pyLe (PyFloat.finite (-90)) lat && pyLe lat (PyFloat.finite 90)) ||
  !(pyLe (PyFloat.finite (-180)) lon && pyLe lon (PyFloat.finite 180))

/-- The containment and result-assembly step of app.py lines 94 to 154,
reached once validation has passed: build the point as (lon, lat), filter
the rows by containment (an exception becoming the internal error outcome),
answer not-found with diagnostics on an empty match, else assemble the
response from the first matching row. -/
def resolvePoint (g : GeoDataFrame) (la lo : ℚ) : Resp :=
  match gdfContains g.rows (lo, la) with
  | Except.error _ => Resp.internalError
  | Except.ok [] => Resp.notFound la lo g.rows.length (availableStates g)
  | Except.ok (r :: _) => Resp.success la lo (buildFields r.attrs)

/-- The locate endpoint of app.py lines 62 to 154: check the store is
loaded, parse and validate the query parameters, then resolve the point
against the store. -/
def locate (gdf : Option GeoDataFrame) (latArg lonArg : Option String) : Resp :=
  match gdf with
  | none => Resp.notLoaded
  | some g =>
    match parseArgs latArg lonArg with
    | none => Resp.invalidParams
    | some (lat, lon) =>
      if rangeBad lat lon then Resp.outOfRange
      else resolvePoint g (pyToRat lat) (pyToRat lon)

/-- Models validate_coordinates of src/utils/geo_utils.py lines 10 to 30,
on already-parsed Python values: a non-numeric argument (anything that is
not an int or float instance) is reported first, then each range check in
turn; a numeric argument is any value of the float model, nan and the
infinities included. -/
def validate_coordinates (lat lon : Option PyFloat) : Bool × Option String :=
  match lat, lon with
  | some vla, some vlo =>
    if !(pyLe (PyFloat.finite (-90)) vla && pyLe vla (PyFloat.finite 90)) then
      (false, some "Latitude must be between -90 and 90")
    else if !(pyLe (PyFloat.finite (-180)) vlo && pyLe vlo (PyFloat.finite 180)) then
      (false, some "Longitude must be between -180 and 180")
    else (true, none)
  | _, _ => (false, some "Coordinates must be numeric values")

/-- Models point_in_polygon of src/utils/geo_utils.py lines 32 to 54: the
first containing row, with any containment failure propagated. -/
def point_in_polygon (la lo : ℚ) (rows : List PolyRecord) :
    Except Unit (Option PolyRecord) :=
  match gdfContains rows (lo, la) with
  | Except.error e => Except.error e
  | Except.ok [] => Except.ok none
  | Except.ok (r :: _) => Except.ok (some r)

/-- Model of the candidate set consulted before exact containment. app.py
has no spatial index: gdf.contains evaluates every row of the store, so the
candidate id sequence is the full insertion-ordered id range, whatever the
point. -/
def candidates (g : GeoDataFrame) (_p : Pt) : List ℕ :=
  List.range g.rows.length

/-- Written from the spec wording for comparison (sections 4.3 step 5 and
6): the distinct normalized attribute values available across the store,
read through the state alias table; app.py instead reads the raw shape1
column alone. -/
def specAvailableValues (g : GeoDataFrame) : List String :=
  sortStrings ((g.rows.filterMap (fun r => firstAlias r.attrs stateAliases)).eraseDups)

/-- A closed square ring with corners (0,0) and (4,4). -/
def sqRing : Ring := [(0, 0), (4, 0), (4, 4), (0, 4), (0, 0)]

/-- A closed square ring with corners (1,1) and (5,5), overlapping sqRing. -/
def sqRingB : Ring := [(1, 1), (5, 1), (5, 5), (1, 5), (1, 1)]

/-- A well-formed record over sqRing labelled through the ST_NM alias. -/
def recA : PolyRecord := { geom := some [sqRing], attrs := [("ST_NM", "Alpha")] }

/-- A well-formed record over sqRingB labelled through the ST_NM alias. -/
def recB : PolyRecord := { geom := some [sqRingB], attrs := [("ST_NM", "Beta")] }

/-- A malformed record: its containment test raises. -/
def recBad : PolyRecord := { geom := none, attrs := [("ST_NM", "Broken")] }

/-- A record carrying only a district alias column. -/
def recD : PolyRecord := { geom := some [sqRing], attrs := [("DISTRICT", "Foo")] }

/-- A record labelled through the raw shape1 column. -/
def recS : PolyRecord := { geom := some [sqRing], attrs := [("shape1", "Alpha")] }

/-- Store with the single well-formed record recA. -/
def gA : GeoDataFrame := { cols := ["ST_NM", "geometry"], rows := [recA] }

/-- Store whose rows are recA then recB, for the overlap tie-break. -/
def gAB : GeoDataFrame := { cols := ["ST_NM", "geometry"], rows := [recA, recB] }

/-- Store with a malformed record ahead of a well-formed containing one. -/
def gBad2 : GeoDataFrame := { cols := ["ST_NM", "geometry"], rows := [recBad, recA] }

/-- Store with a single malformed record. -/
def gBad1 : GeoDataFrame := { cols := ["ST_NM", "geometry"], rows := [recBad] }

/-- Store with a single record carrying only a district alias column. -/
def gD : GeoDataFrame := { cols := ["DISTRICT", "geometry"], rows := [recD] }

/-- Store with a single record labelled through the shape1 column. -/
def gS : GeoDataFrame := { cols := ["shape1", "geometry"], rows := [recS] }

/-- When every row geometry is well formed, the mask filter succeeds and
returns exactly the containing rows in order. -/
lemma gdfContains_wf (rows : List PolyRecord) (p : Pt)
    (hwf : ∀ r ∈ rows, r.geom.isSome = true) :
    gdfContains rows p = Except.ok (rows.filter (fun r => recContains r p)) := by
  induction rows with
  | nil => rfl
  | cons r rest ih =>
    have hr : r.geom.isSome = true := hwf r (List.mem_cons_self r rest)
    obtain ⟨poly, hpoly⟩ := Option.isSome_iff_exists.mp hr
    have hrest : gdfContains rest p = Except.ok (rest.filter (fun r => recContains r p)) :=
      ih (fun r hrmem => hwf r (List.mem_cons_of_mem _ hrmem))
    simp only [gdfContains, hpoly, hrest, List.filter_cons, recContains]

/-- A single malformed record anywhere in the store makes the whole mask
computation raise. -/
lemma gdfContains_bad (rows : List PolyRecord) (p : Pt)
    (hbad : ∃ r ∈ rows, r.geom = none) :
    gdfContains rows p = Except.error () := by
  induction rows with
  | nil => simp at hbad
  | cons r rest ih =>
    obtain ⟨rb, hmem, hnone⟩ := hbad
    rcases List.mem_cons.mp hmem with heq | hmem2
    · subst heq
      simp [gdfContains, hnone]
    · cases hg : r.geom with
      | none => simp [gdfContains, hg]
      | some poly =>
        have := ih ⟨rb, hmem2, hnone⟩
        simp [gdfContains, hg, this]

/-- Both arguments present and parsed yield both float values. -/
lemma parseArgs_some {sLat sLon : String} {vLat vLon : PyFloat}
    (h1 : pyFloat sLat = some vLat) (h2 : pyFloat sLon = some vLon) :
    parseArgs (some sLat) (some sLon) = some (vLat, vLon) := by
  simp [parseArgs, Option.bind, h1, h2]

/-- The locate endpoint on a loaded store with parseable arguments reduces
to the range check followed by point resolution. -/
lemma locate_parsed (g : GeoDataFrame) (latArg lonArg : Option String)
    {vLat vLon : PyFloat}
    (hp : parseArgs latArg lonArg = some (vLat, vLon)) :
    locate (some g) latArg lonArg =
      if rangeBad vLat vLon then Resp.outOfRange
      else resolvePoint g (pyToRat vLat) (pyToRat vLon) := by
  simp [locate, hp]

/-- The locate endpoint on a loaded store with unparseable or missing
arguments answers the invalid-parameters error. -/
lemma locate_unparsed (g : GeoDataFrame) (latArg lonArg : Option String)
    (hp : parseArgs latArg lonArg = none) :
    locate (some g) latArg lonArg = Resp.invalidParams := by
  simp [locate, hp]

/-- A range check that passes forces both values to be finite. -/
lemma rangeBad_false_finite {vLat vLon : PyFloat}
    (h : rangeBad vLat vLon = false) :
    (∃ la, vLat = PyFloat.finite la) ∧ (∃ lo, vLon = PyFloat.finite lo) := by
  cases vLat <;> cases vLon <;> simp_all [rangeBad, pyLe]

/-- On finite values the range check computes the interval conditions. -/
lemma rangeBad_finite (la lo : ℚ) :
    rangeBad (PyFloat.finite la) (PyFloat.finite lo) =
      (!(decide (-90 ≤ la) && decide (la ≤ 90)) ||
       !(decide (-180 ≤ lo) && decide (lo ≤ 180))) := rfl

/-- The range check passes exactly on the closed coordinate intervals. -/
lemma rangeBad_false_iff (la lo : ℚ) :
    rangeBad (PyFloat.finite la) (PyFloat.finite lo) = false ↔
      (-90 ≤ la ∧ la ≤ 90 ∧ -180 ≤ lo ∧ lo ≤ 180) := by
  rw [rangeBad_finite]
  simp [and_assoc]

/-- A non-finite coordinate value always fails the range check. -/
lemma rangeBad_nonfinite {vLat vLon : PyFloat}
    (h : vLat.isFinite = false ∨ vLon.isFinite = false) :
    rangeBad vLat vLon = true := by
  rcases h with h | h <;> cases vLat <;> cases vLon <;>
    simp_all [PyFloat.isFinite, rangeBad, pyLe]

/-- Full evaluation of locate for valid parsed in-range coordinates. -/
lemma locate_valid (g : GeoDataFrame) {sLat sLon : String} {la lo : ℚ}
    (hla : pyFloat sLat = some (PyFloat.finite la))
    (hlo : pyFloat sLon = some (PyFloat.finite lo))
    (hr : rangeBad (PyFloat.finite la) (PyFloat.finite lo) = false) :
    locate (some g) (some sLat) (some sLon) = resolvePoint g la lo := by
  rw [locate_parsed g _ _ (parseArgs_some hla hlo), hr]
  rfl

/-- A point on the boundary of any ring of a polygon is never contained:
the interior test excludes the boundary. -/
lemma boundary_not_contained (poly : Poly) (p : Pt)
    (h : polyOnBoundary poly p = true) : polyContains poly p = false := by
  cases poly with
  | nil => rfl
  | cons outer holes => simp [polyContains, h]

/-- When no row contains the point, the well-formed mask filter is empty. -/
lemma filter_nil_of_none (rows : List PolyRecord) (p : Pt)
    (hnone : ∀ r ∈ rows, recContains r p = false) :
    rows.filter (fun r => recContains r p) = [] := by
  induction rows with
  | nil => rfl
  | cons r rest ih =>
    have h1 := hnone r (List.mem_cons_self r rest)
    have h2 := ih (fun r hr => hnone r (List.mem_cons_of_mem _ hr))
    simp [List.filter_cons, h1, h2]

/-- The first element kept by a filter is the element at the least index
satisfying the predicate. -/
lemma filter_head_minimal {α : Type} (l : List α) (q : α → Bool) (i : ℕ)
    (hi : i < l.length) (h1 : q (l.get ⟨i, hi⟩) = true)
    (h2 : ∀ j (hj : j < i), q (l.get ⟨j, Nat.lt_trans hj hi⟩) = false) :
    ∃ tl, l.filter q = l.get ⟨i, hi⟩ :: tl := by
  induction l generalizing i with
  | nil => simp at hi
  | cons a as ih =>
    cases i with
    | zero =>
      refine ⟨as.filter q, ?_⟩
      simp only [List.get] at h1
      simp [List.filter_cons, h1]
    | succ k =>
      have ha : q a = false := h2 0 (Nat.succ_pos k)
      have hk : k < as.length := Nat.lt_of_succ_lt_succ hi
      have h1k : q (as.get ⟨k, hk⟩) = true := h1
      have h2k : ∀ j (hj : j < k), q (as.get ⟨j, Nat.lt_trans hj hk⟩) = false :=
        fun j hj => h2 (j + 1) (Nat.succ_lt_succ hj)
      obtain ⟨tl, htl⟩ := ih k hk h1k h2k
      exact ⟨tl, by simp [List.filter_cons, ha, htl]⟩

/-- In-place overwrite at a different key leaves a lookup unchanged. -/
lemma lookup_dictSet_ne (d : List (String × String)) (k k' v : String)
    (h : k ≠ k') : (dictSet d k' v).lookup k = d.lookup k := by
  induction d with
  | nil => rfl
  | cons kv d ih =>
    obtain ⟨k1, v1⟩ := kv
    simp only [dictSet, List.map_cons] at *
    by_cases h1 : k1 = k'
    · rw [if_pos (show (k1, v1).1 = k' from h1), List.lookup_cons, List.lookup_cons,
        beq_false_of_ne h, beq_false_of_ne (fun he : k = k1 => h (he.trans h1))]
      exact ih
    · rw [if_neg (show ¬(k1, v1).1 = k' from h1), List.lookup_cons, List.lookup_cons]
      cases hb : (k == k1) <;> simp [ih]

/-- Appending a binding for a different key leaves a lookup unchanged. -/
lemma lookup_append_ne (d : List (String × String)) (k k' v : String)
    (h : k ≠ k') : (d ++ [(k', v)]).lookup k = d.lookup k := by
  induction d with
  | nil =>
    simp only [List.nil_append, List.lookup_cons, beq_false_of_ne h]
  | cons kv d ih =>
    obtain ⟨k1, v1⟩ := kv
    simp only [List.cons_append, List.lookup_cons]
    cases hb : (k == k1) <;> simp [ih]

/-- Dict assignment at a different key leaves a lookup unchanged. -/
lemma lookup_dictInsert_ne (d : List (String × String)) (k k' v : String)
    (h : k ≠ k') : (dictInsert d k' v).lookup k = d.lookup k := by
  unfold dictInsert
  by_cases ha : d.any (fun kv => decide (kv.1 = k')) = true
  · rw [if_pos ha]
    exact lookup_dictSet_ne d k k' v h
  · rw [if_neg ha]
    exact lookup_append_ne d k k' v h

/-- The key written by a dict assignment is present afterwards. -/
lemma mem_keys_dictInsert_self (d : List (String × String)) (k v : String) :
    k ∈ (dictInsert d k v).map Prod.fst := by
  unfold dictInsert
  by_cases ha : d.any (fun kv => decide (kv.1 = k)) = true
  · rw [if_pos ha]
    obtain ⟨kv, hmem, hk⟩ := List.any_eq_true.mp ha
    have hk' : kv.1 = k := of_decide_eq_true hk
    refine List.mem_map.mpr ⟨(k, v), ?_, rfl⟩
    unfold dictSet
    exact List.mem_map.mpr ⟨kv, hmem, by rw [if_pos hk']⟩
  · rw [if_neg ha, List.map_append]
    exact List.mem_append_right _ (by simp)

/-- Dict assignment preserves all keys already present. -/
lemma mem_keys_dictInsert_mono (d : List (String × String)) (k v k0 : String)
    (h : k0 ∈ d.map Prod.fst) : k0 ∈ (dictInsert d k v).map Prod.fst := by
  unfold dictInsert
  by_cases ha : d.any (fun kv => decide (kv.1 = k)) = true
  · rw [if_pos ha]
    obtain ⟨kv, hmem, hk0⟩ := List.mem_map.mp h
    unfold dictSet
    rw [List.map_map]
    refine List.mem_map.mpr ⟨kv, hmem, ?_⟩
    by_cases hke : kv.1 = k
    · simp only [Function.comp, if_pos hke]
      rw [← hk0, hke]
    · simp only [Function.comp, if_neg hke]
      exact hk0
  · rw [if_neg ha, List.map_append]
    exact List.mem_append_left _ h

/-- The raw dump preserves all keys already present in the response. -/
lemma mem_keys_rawDump_mono (attrs : List (String × String))
    (resp : List (String × String)) (k0 : String)
    (h : k0 ∈ resp.map Prod.fst) : k0 ∈ (rawDump resp attrs).map Prod.fst := by
  induction attrs generalizing resp with
  | nil => exact h
  | cons kv attrs ih =>
    unfold rawDump
    simp only [List.foldl_cons]
    by_cases hg : kv.1 = "geometry"
    · rw [if_pos hg]
      exact ih resp h
    · rw [if_neg hg]
      exact ih _ (mem_keys_dictInsert_mono resp kv.1 kv.2 k0 h)

/-- Every non-geometry column of the row appears among the keys after the
raw dump. -/
lemma mem_keys_rawDump (attrs : List (String × String))
    (resp : List (String × String)) (kv : String × String)
    (hmem : kv ∈ attrs) (hg : kv.1 ≠ "geometry") :
    kv.1 ∈ (rawDump resp attrs).map Prod.fst := by
  induction attrs generalizing resp with
  | nil => simp at hmem
  | cons a attrs ih =>
    unfold rawDump
    simp only [List.foldl_cons]
    rcases List.mem_cons.mp hmem with heq | hmem2
    · subst heq
      rw [if_neg hg]
      exact mem_keys_rawDump_mono attrs _ kv.1
        (mem_keys_dictInsert_self resp kv.1 kv.2)
    · by_cases hga : a.1 = "geometry"
      · rw [if_pos hga]
        exact ih _ hmem2
      · rw [if_neg hga]
        exact ih _ hmem2

/-- When a state alias matches, the canonical state key is populated. -/
lemma canonicalFields_state_some (attrs : List (String × String)) (v : String)
    (h : firstAlias attrs stateAliases = some v) :
    (canonicalFields attrs).lookup "state" = some v := by
  unfold canonicalFields possibleNames
  simp only [List.foldl_cons, List.foldl_nil, h]
  have h1 : (dictInsert [] "state" v).lookup "state" = some v := by
    simp [dictInsert, List.lookup_cons]
  cases hD : firstAlias attrs districtAliases with
  | none =>
    cases hC : firstAlias attrs stateCodeAliases with
    | none => exact h1
    | some w =>
      rw [lookup_dictInsert_ne _ "state" "state_code" w (by decide)]
      exact h1
  | some w =>
    cases hC : firstAlias attrs stateCodeAliases with
    | none =>
      rw [lookup_dictInsert_ne _ "state" "district" w (by decide)]
      exact h1
    | some u =>
      rw [lookup_dictInsert_ne _ "state" "state_code" u (by decide),
        lookup_dictInsert_ne _ "state" "district" w (by decide)]
      exact h1

/-- When no state alias matches, the canonical state key stays empty. -/
lemma canonicalFields_state_none (attrs : List (String × String))
    (h : firstAlias attrs stateAliases = none) :
    (canonicalFields attrs).lookup "state" = none := by
  unfold canonicalFields possibleNames
  simp only [List.foldl_cons, List.foldl_nil, h]
  cases hD : firstAlias attrs districtAliases with
  | none =>
    cases hC : firstAlias attrs stateCodeAliases with
    | none => rfl
    | some w =>
      rw [lookup_dictInsert_ne _ "state" "state_code" w (by decide)]
      rfl
  | some w =>
    cases hC : firstAlias attrs stateCodeAliases with
    | none =>
      rw [lookup_dictInsert_ne _ "state" "district" w (by decide)]
      rfl
    | some u =>
      rw [lookup_dictInsert_ne _ "state" "state_code" u (by decide),
        lookup_dictInsert_ne _ "state" "district" w (by decide)]
      rfl

/-- Both endpoints of a ring edge are ring vertices. -/
lemma ringEdges_mem (r : Ring) (e : Pt × Pt) (he : e ∈ ringEdges r) :
    e.1 ∈ r ∧ e.2 ∈ r := by
  obtain ⟨a, b⟩ := e
  have h := List.of_mem_zip he
  exact ⟨h.1, List.mem_of_mem_tail h.2⟩

/-- The optional last element of a nonempty list via the default form. -/
lemma getLast?_cons_getLastD (a : Pt) (l : List Pt) :
    (a :: l).getLast? = some (l.getLastD a) := by
  induction l generalizing a with
  | nil => rfl
  | cons b l ih => rw [List.getLast?_cons_cons, ih, List.getLastD_cons]

/-- Where a straddling edge meets the ray height, the crossing abscissa
lies between the abscissas of the two endpoints. -/
lemma xIntersect_bounds (e : Pt × Pt) (py : ℚ) (h : straddles py e = true) :
    min e.1.1 e.2.1 ≤ xIntersect e py ∧ xIntersect e py ≤ max e.1.1 e.2.1 := by
  obtain ⟨⟨ax, ay⟩, ⟨bx, b_y⟩⟩ := e
  simp only [straddles, bne_iff_ne, ne_eq, decide_eq_decide] at h
  simp only [xIntersect]
  set t : ℚ := (py - ay) / (b_y - ay) with ht
  have h01 : 0 ≤ t ∧ t ≤ 1 := by
    by_cases hA : py < ay
    · have hB : ¬ py < b_y := fun hB => h (iff_of_true hA hB)
      push_neg at hB
      have hd : (0 : ℚ) < ay - b_y := by linarith
      have hrw : t = (ay - py) / (ay - b_y) := by
        rw [ht, ← neg_div_neg_eq]
        ring_nf
      constructor
      · rw [hrw]
        exact div_nonneg (by linarith) (le_of_lt hd)
      · rw [hrw, div_le_one hd]
        linarith
    · have hB : py < b_y := by
        by_contra hB
        exact h (iff_of_false hA hB)
      have hd : (0 : ℚ) < b_y - ay := by
        push_neg at hA
        linarith
      constructor
      · rw [ht]
        refine div_nonneg ?_ (le_of_lt hd)
        push_neg at hA
        linarith
      · rw [ht, div_le_one hd]
        linarith
  have hx : ax + (bx - ax) * (py - ay) / (b_y - ay) = ax + (bx - ax) * t := by
    rw [ht, mul_div_assoc]
  rw [hx]
  rcases le_total ax bx with hab | hab
  · rw [min_eq_left hab, max_eq_right hab]
    constructor
    · have := mul_nonneg (by linarith : (0 : ℚ) ≤ bx - ax) h01.1
      linarith
    · have := mul_le_of_le_one_right (by linarith : (0 : ℚ) ≤ bx - ax) h01.2
      linarith
  · rw [min_eq_right hab, max_eq_left hab]
    constructor
    · have := mul_le_mul_of_nonpos_left h01.2 (by linarith : bx - ax ≤ 0)
      linarith
    · have := mul_nonneg h01.1 (by linarith : (0 : ℚ) ≤ ax - bx)
      nlinarith [h01.1, h01.2]

/-- Walking a vertex chain, the number of straddling edges is even exactly
when the first and last vertices lie on the same side of the ray height. -/
lemma straddle_parity (py : ℚ) (a : Pt) (rest : List Pt) :
    (ringEdges (a :: rest)).countP (straddles py) % 2 =
      if decide (a.2 > py) = decide ((rest.getLastD a).2 > py) then 0 else 1 := by
  induction rest generalizing a with
  | nil => simp [ringEdges]
  | cons b rest2 ih =>
    have he : ringEdges (a :: b :: rest2) = (a, b) :: ringEdges (b :: rest2) := rfl
    rw [he, List.countP_cons, List.getLastD_cons]
    have ihb := ih b
    have hs : straddles py (a, b) = (decide (a.2 > py) != decide (b.2 > py)) := rfl
    simp only [hs]
    revert ihb
    cases hx : decide (a.2 > py) <;> cases hy : decide (b.2 > py) <;>
      cases hz : decide ((rest2.getLastD b).2 > py) <;> intro ihb <;>
      norm_num at ihb ⊢ <;> omega

/-- A ring whose vertices all lie strictly on one side of the query point,
in any of the four axis directions, never takes the point inside, provided
the ring is closed. -/
lemma inRingEvenOdd_outside (p : Pt) (r : Ring) (hcl : r.head? = r.getLast?)
    (hout : (∀ v ∈ r, v.2 < p.2) ∨ (∀ v ∈ r, p.2 < v.2) ∨
            (∀ v ∈ r, v.1 < p.1) ∨ (∀ v ∈ r, p.1 < v.1)) :
    inRingEvenOdd p r = false := by
  cases r with
  | nil => rfl
  | cons a rest =>
    unfold inRingEvenOdd
    rcases hout with hc | hc | hc | hc
    · -- all vertices strictly below the ray: no edge straddles
      have hz : (ringEdges (a :: rest)).countP (edgeCrossing p) = 0 := by
        refine List.countP_eq_zero.mpr (fun e he => ?_)
        obtain ⟨h1, h2⟩ := ringEdges_mem _ e he
        have d1 : decide (e.1.2 > p.2) = false := by
          simp [not_lt.mpr (le_of_lt (hc e.1 h1))]
        have d2 : decide (e.2.2 > p.2) = false := by
          simp [not_lt.mpr (le_of_lt (hc e.2 h2))]
        simp [edgeCrossing, straddles, d1, d2]
      rw [hz]
      rfl
    · -- all vertices strictly above the ray: no edge straddles
      have hz : (ringEdges (a :: rest)).countP (edgeCrossing p) = 0 := by
        refine List.countP_eq_zero.mpr (fun e he => ?_)
        obtain ⟨h1, h2⟩ := ringEdges_mem _ e he
        have d1 : decide (e.1.2 > p.2) = true := by simp [hc e.1 h1]
        have d2 : decide (e.2.2 > p.2) = true := by simp [hc e.2 h2]
        simp [edgeCrossing, straddles, d1, d2]
      rw [hz]
      rfl
    · -- point strictly right of every vertex: the ray never reaches an edge
      have hz : (ringEdges (a :: rest)).countP (edgeCrossing p) = 0 := by
        refine List.countP_eq_zero.mpr (fun e he => ?_)
        obtain ⟨h1, h2⟩ := ringEdges_mem _ e he
        simp only [edgeCrossing, Bool.and_eq_true, not_and]
        intro hstr
        have hb := (xIntersect_bounds e p.2 hstr).2
        have hmax : max e.1.1 e.2.1 < p.1 := max_lt (hc e.1 h1) (hc e.2 h2)
        simp only [decide_eq_true_eq, not_lt]
        linarith
      rw [hz]
      rfl
    · -- point strictly left of every vertex: crossings equal straddles,
      -- whose count is even on a closed ring
      have hcg : (ringEdges (a :: rest)).countP (edgeCrossing p) =
          (ringEdges (a :: rest)).countP (straddles p.2) := by
        refine List.countP_congr (fun e he => ?_)
        obtain ⟨h1, h2⟩ := ringEdges_mem _ e he
        simp only [edgeCrossing, Bool.and_eq_true, decide_eq_true_eq]
        constructor
        · exact fun hx => hx.1
        · intro hstr
          refine ⟨hstr, ?_⟩
          have hb := (xIntersect_bounds e p.2 hstr).1
          have hmin : p.1 < min e.1.1 e.2.1 := lt_min (hc e.1 h1) (hc e.2 h2)
          linarith
      have hlast : rest.getLastD a = a := by
        have := hcl
        rw [List.head?_cons, getLast?_cons_getLastD] at this
        exact (Option.some_injective _ this).symm
      rw [hcg, straddle_parity, hlast, if_pos rfl]
      rfl

/-- Folding the widening step keeps the accumulated box inside the result. -/
lemma foldl_bbox_shrink (vs : List Pt) (bb : BBox) :
    (vs.foldl bboxStep bb).minLon ≤ bb.minLon ∧ bb.maxLon ≤ (vs.foldl bboxStep bb).maxLon ∧
    (vs.foldl bboxStep bb).minLat ≤ bb.minLat ∧ bb.maxLat ≤ (vs.foldl bboxStep bb).maxLat := by
  induction vs generalizing bb with
  | nil => exact ⟨le_refl _, le_refl _, le_refl _, le_refl _⟩
  | cons v vs ih =>
    have h := ih (bboxStep bb v)
    refine ⟨le_trans h.1 (min_le_left _ _), le_trans (le_max_left _ _) h.2.1,
      le_trans h.2.2.1 (min_le_left _ _), le_trans (le_max_left _ _) h.2.2.2⟩

/-- Every vertex folded into the box ends inside the resulting box. -/
lemma foldl_bbox_mem (vs : List Pt) (bb : BBox) (w : Pt) (hw : w ∈ vs) :
    (vs.foldl bboxStep bb).minLon ≤ w.1 ∧ w.1 ≤ (vs.foldl bboxStep bb).maxLon ∧
    (vs.foldl bboxStep bb).minLat ≤ w.2 ∧ w.2 ≤ (vs.foldl bboxStep bb).maxLat := by
  induction vs generalizing bb with
  | nil => simp at hw
  | cons v vs ih =>
    rcases List.mem_cons.mp hw with heq | hmem
    · subst heq
      have h' := foldl_bbox_shrink vs (bboxStep bb w)
      exact ⟨le_trans h'.1 (min_le_right _ _), le_trans (le_max_right _ _) h'.2.1,
        le_trans h'.2.2.1 (min_le_right _ _), le_trans (le_max_right _ _) h'.2.2.2⟩
    · exact ih (bboxStep bb v) hmem

/-- Every vertex of a polygon lies inside its computed bounding box. -/
lemma polyBBox_mem (poly : Poly) (w : Pt) (hw : w ∈ polyVerts poly) :
    (polyBBox poly).minLon ≤ w.1 ∧ w.1 ≤ (polyBBox poly).maxLon ∧
    (polyBBox poly).minLat ≤ w.2 ∧ w.2 ≤ (polyBBox poly).maxLat := by
  unfold polyBBox
  cases hv : polyVerts poly with
  | nil => rw [hv] at hw; simp at hw
  | cons v vs =>
    rw [hv] at hw
    rcases List.mem_cons.mp hw with heq | hmem
    · subst heq
      have h := foldl_bbox_shrink vs ⟨w.1, w.2, w.1, w.2⟩
      exact ⟨h.1, h.2.1, h.2.2.1, h.2.2.2⟩
    · exact foldl_bbox_mem vs _ w hmem

/-- A query point outside the bounding box of a polygon with closed rings
is never contained in the polygon. -/
lemma bbox_prune (poly : Poly) (p : Pt)
    (hcl : ∀ r ∈ poly, r.head? = r.getLast?)
    (hout : inBBox p (polyBBox poly) = false) :
    polyContains poly p = false := by
  cases poly with
  | nil => rfl
  | cons outer holes =>
    have hmemOuter : ∀ v ∈ outer, v ∈ polyVerts (outer :: holes) := fun v hv =>
      List.mem_flatten.mpr ⟨outer, List.mem_cons_self _ _, hv⟩
    have houter : inRingEvenOdd p outer = false := by
      refine inRingEvenOdd_outside p outer
        (hcl outer (List.mem_cons_self _ _)) ?_
      by_cases c1 : (polyBBox (outer :: holes)).minLon ≤ p.1
      · by_cases c2 : p.1 ≤ (polyBBox (outer :: holes)).maxLon
        · by_cases c3 : (polyBBox (outer :: holes)).minLat ≤ p.2
          · by_cases c4 : p.2 ≤ (polyBBox (outer :: holes)).maxLat
            · exfalso
              have ht : inBBox p (polyBBox (outer :: holes)) = true := by
                simp [inBBox, c1, c2, c3, c4]
              rw [ht] at hout
              simp at hout
            · -- point strictly above the box: every vertex strictly below it
              left
              intro v hv
              have hb := polyBBox_mem (outer :: holes) v (hmemOuter v hv)
              push_neg at c4
              linarith [hb.2.2.2]
          · -- point strictly below the box: every vertex strictly above it
            right; left
            intro v hv
            have hb := polyBBox_mem (outer :: holes) v (hmemOuter v hv)
            push_neg at c3
            linarith [hb.2.2.1]
        · -- point strictly right of the box: every vertex strictly left of it
          right; right; left
          intro v hv
          have hb := polyBBox_mem (outer :: holes) v (hmemOuter v hv)
          push_neg at c2
          linarith [hb.2.1]
      · -- point strictly left of the box: every vertex strictly right of it
        right; right; right
        intro v hv
        have hb := polyBBox_mem (outer :: holes) v (hmemOuter v hv)
        push_neg at c1
        linarith [hb.1]
    unfold polyContains
    by_cases hb : polyOnBoundary (outer :: holes) p
    · simp [hb]
    · simp [hb, houter]

/-- Point resolution answers not-found with the store diagnostics when no
well-formed row contains the point. -/
lemma resolve_notFound (g : GeoDataFrame) (la lo : ℚ)
    (hwf : ∀ r ∈ g.rows, r.geom.isSome = true)
    (hnone : ∀ r ∈ g.rows, recContains r (lo, la) = false) :
    resolvePoint g la lo = Resp.notFound la lo g.rows.length (availableStates g) := by
  unfold resolvePoint
  rw [gdfContains_wf g.rows _ hwf, filter_nil_of_none _ _ hnone]

/-- Claim C1, corrected. The claim asserts boundary-inclusive containment;
the code uses the shapely contains predicate, which excludes the boundary.
Amended: containment is boundary-exclusive — a query point lying exactly on
an edge or vertex of a polygon boundary is not treated as contained by that
polygon, and a store in which every polygon has the point on its boundary
answers not-found. -/
theorem spec_C1 :
    (∀ (poly : Poly) (p : Pt), polyOnBoundary poly p = true →
        polyContains poly p = false) ∧
    (∀ (g : GeoDataFrame) (sLat sLon : String) (la lo : ℚ),
        pyFloat sLat = some (PyFloat.finite la) →
        pyFloat sLon = some (PyFloat.finite lo) →
        rangeBad (PyFloat.finite la) (PyFloat.finite lo) = false →
        (∀ r ∈ g.rows, ∃ poly, r.geom = some poly ∧
            polyOnBoundary poly (lo, la) = true) →
        locate (some g) (some sLat) (some sLon) =
          Resp.notFound la lo g.rows.length (availableStates g)) := by
  constructor
  · exact boundary_not_contained
  · intro g sLat sLon la lo hla hlo hr hbd
    rw [locate_valid g hla hlo hr]
    have hwf : ∀ r ∈ g.rows, r.geom.isSome = true := by
      intro r hr2
      obtain ⟨poly, hp, _⟩ := hbd r hr2
      simp [hp]
    have hnone : ∀ r ∈ g.rows, recContains r (lo, la) = false := by
      intro r hr2
      obtain ⟨poly, hp, hb⟩ := hbd r hr2
      simp [recContains, hp, boundary_not_contained poly _ hb]
    exact resolve_notFound g la lo hwf hnone

/-- Claim C1, counterexample to the claim as stated: the point (lat 0,
lon 2) lies exactly on the bottom edge of the square polygon of store gA,
yet the query answers not-found, not success. -/
theorem spec_C1_cex :
    polyOnBoundary [sqRing] (2, 0) = true ∧
    locate (some gA) (some "0") (some "2") = Resp.notFound 0 2 1 [] ∧
    isSuccess (Resp.notFound 0 2 1 []) = false := by decide

/-- Claim C1, witness: the amended theorem applied to the concrete store gA
and the boundary point (lat 2, lon 4) on the right edge of its square. -/
theorem spec_C1_witness :
    locate (some gA) (some "2") (some "4") = Resp.notFound 2 4 1 [] := by
  have h := spec_C1.2 gA "2" "4" 2 4 (by decide) (by decide) (by decide)
    (by
      intro r hr
      have hrA : r = recA := by simpa [gA] using hr
      subst hrA
      exact ⟨[sqRing], rfl, by decide⟩)
  rw [h]
  decide

/-- Claim C2, corrected. The claim asserts that a malformed record is
skipped and evaluation continues over the remaining candidates. In the code
the whole containment mask sits in one try block, so a malformed record
aborts the query: it answers the internal error outcome (HTTP 500), which
is at least surfaced distinctly from the two InvalidInput outcomes (HTTP
400). Amended: a malformed record encountered during containment testing
aborts the query with the internal error outcome, distinct from
InvalidInput; the remaining records are not consulted. -/
theorem spec_C2 (g : GeoDataFrame) (sLat sLon : String) (vLat vLon : PyFloat)
    (hp : parseArgs (some sLat) (some sLon) = some (vLat, vLon))
    (hr : rangeBad vLat vLon = false)
    (hbad : ∃ r ∈ g.rows, r.geom = none) :
    locate (some g) (some sLat) (some sLon) = Resp.internalError ∧
    Resp.internalError ≠ Resp.invalidParams ∧
    Resp.internalError ≠ Resp.outOfRange := by
  refine ⟨?_, by decide, by decide⟩
  rw [locate_parsed g _ _ hp, hr]
  simp only [Bool.false_eq_true, if_false]
  unfold resolvePoint
  rw [gdfContains_bad g.rows _ hbad]

/-- Claim C2, counterexample to the claim as stated: the store gBad2 is the
store gA with a malformed record inserted ahead of it; at a point contained
in the well-formed polygon the query answers the internal error instead of
the success the remaining well-formed record determines, so the bad record
is not skipped and does change the outcome. -/
theorem spec_C2_cex :
    locate (some gBad2) (some "2") (some "2") = Resp.internalError ∧
    locate (some gA) (some "2") (some "2") =
      Resp.success 2 2 [("state", "Alpha")] ∧
    Resp.internalError ≠ Resp.success 2 2 [("state", "Alpha")] := by decide

/-- Claim C2, witness: the amended theorem applied to the store gBad1 whose
single record is malformed, at the valid point (lat 3, lon 3). -/
theorem spec_C2_witness :
    locate (some gBad1) (some "3") (some "3") = Resp.internalError :=
  (spec_C2 gBad1 "3" "3" (PyFloat.finite 3) (PyFloat.finite 3) (by decide)
    (by decide) ⟨recBad, by decide, rfl⟩).1

/-- Claim C3, corrected. The claim asserts the raw column dump happens
exactly when no canonical key matched; the code triggers it whenever the
state key specifically is absent, even if district or state code matched.
Amended: when a state alias matches, the response carries the canonical
fields alone; when no state alias matches, every non-geometry column of the
record is dumped into the response, whether or not the district or state
code keys matched. -/
theorem spec_C3 :
    (∀ attrs : List (String × String),
        (firstAlias attrs stateAliases).isSome = true →
        buildFields attrs = canonicalFields attrs) ∧
    (∀ attrs : List (String × String),
        firstAlias attrs stateAliases = none →
        ∀ kv ∈ attrs, kv.1 ≠ "geometry" →
          kv.1 ∈ (buildFields attrs).map Prod.fst) := by
  constructor
  · intro attrs hs
    obtain ⟨v, hv⟩ := Option.isSome_iff_exists.mp hs
    have hz : buildFields attrs =
        if ((canonicalFields attrs).lookup "state").isSome = true
        then canonicalFields attrs else rawDump (canonicalFields attrs) attrs := rfl
    rw [hz, canonicalFields_state_some attrs v hv]
    simp
  · intro attrs hs kv hmem hg
    have hz : buildFields attrs =
        if ((canonicalFields attrs).lookup "state").isSome = true
        then canonicalFields attrs else rawDump (canonicalFields attrs) attrs := rfl
    rw [hz, canonicalFields_state_none attrs hs]
    simp only [Option.isSome_none, Bool.false_eq_true, if_false]
    exact mem_keys_rawDump attrs _ kv hmem hg

/-- Claim C3, counterexample to the claim as stated: in store gD the single
record has a district alias column and no state alias; the canonical
district key is populated, yet the response also carries the raw DISTRICT
column, so the dump is not restricted to the no-canonical-match case. -/
theorem spec_C3_cex :
    locate (some gD) (some "2") (some "2") =
      Resp.success 2 2 [("district", "Foo"), ("DISTRICT", "Foo")] ∧
    (canonicalFields recD.attrs).lookup "district" = some "Foo" ∧
    ("DISTRICT" ∈ ["state", "district", "state_code"]) = False := by
  refine ⟨by decide, by decide, by simp⟩

/-- Claim C3, witness: the amended theorem applied to a row with a matching
state alias, whose response is the canonical fields alone. -/
theorem spec_C3_witness :
    buildFields [("ST_NM", "Alpha")] = canonicalFields [("ST_NM", "Alpha")] :=
  spec_C3.1 [("ST_NM", "Alpha")] (by decide)

/-- Claim C4, confirmed. Parameters that are missing or fail to parse as
floats answer the invalid-parameters outcome; parsed values failing the
range check answer the distinct out-of-range outcome; parsed finite
in-range pairs always reach containment testing; and the range check passes
exactly on lat in the interval -90 to 90 and lon in -180 to 180. -/
theorem spec_C4 :
    (∀ (g : GeoDataFrame) (latArg lonArg : Option String),
        parseArgs latArg lonArg = none →
        locate (some g) latArg lonArg = Resp.invalidParams) ∧
    (∀ (g : GeoDataFrame) (latArg lonArg : Option String) (vLat vLon : PyFloat),
        parseArgs latArg lonArg = some (vLat, vLon) →
        rangeBad vLat vLon = true →
        locate (some g) latArg lonArg = Resp.outOfRange) ∧
    (∀ (g : GeoDataFrame) (latArg lonArg : Option String) (vLat vLon : PyFloat),
        parseArgs latArg lonArg = some (vLat, vLon) →
        rangeBad vLat vLon = false →
        reachesContainment (locate (some g) latArg lonArg) = true) ∧
    (∀ la lo : ℚ,
        rangeBad (PyFloat.finite la) (PyFloat.finite lo) = false ↔
          (-90 ≤ la ∧ la ≤ 90 ∧ -180 ≤ lo ∧ lo ≤ 180)) ∧
    Resp.invalidParams ≠ Resp.outOfRange := by
  refine ⟨?_, ?_, ?_, rangeBad_false_iff, by decide⟩
  · intro g latArg lonArg hp
    exact locate_unparsed g latArg lonArg hp
  · intro g latArg lonArg vLat vLon hp hr
    rw [locate_parsed g _ _ hp, hr]
    simp
  · intro g latArg lonArg vLat vLon hp hr
    rw [locate_parsed g _ _ hp, hr]
    simp only [Bool.false_eq_true, if_false]
    unfold resolvePoint
    cases gdfContains g.rows (pyToRat vLon, pyToRat vLat) with
    | error e => rfl
    | ok ms => cases ms with
      | nil => rfl
      | cons r tl => rfl

/-- Claim C4, witness: the three validation outcomes at concrete inputs
against store gA: a non-numeric latitude, an out-of-range latitude, and a
valid pair that reaches containment. -/
theorem spec_C4_witness :
    locate (some gA) (some "abc") (some "1") = Resp.invalidParams ∧
    locate (some gA) (some "100") (some "1") = Resp.outOfRange ∧
    reachesContainment (locate (some gA) (some "2") (some "2")) = true :=
  ⟨spec_C4.1 gA (some "abc") (some "1") (by decide),
   spec_C4.2.1 gA (some "100") (some "1") (PyFloat.finite 100)
     (PyFloat.finite 1) (by decide) (by decide),
   spec_C4.2.2.1 gA (some "2") (some "2") (PyFloat.finite 2)
     (PyFloat.finite 2) (by decide) (by decide)⟩

/-- Claim C5, corrected. On a miss the result is not-found and does carry
the total polygon count of the store and never any partial match, but the
available-values list is read from the raw shape1 column alone: when the
store labels its records through any other alias the list is empty rather
than the distinct normalized attribute values. Amended: the not-found
result carries the store size and the sorted distinct values of the raw
shape1 column when that column exists, the empty list otherwise. -/
theorem spec_C5 (g : GeoDataFrame) (sLat sLon : String) (la lo : ℚ)
    (hla : pyFloat sLat = some (PyFloat.finite la))
    (hlo : pyFloat sLon = some (PyFloat.finite lo))
    (hr : rangeBad (PyFloat.finite la) (PyFloat.finite lo) = false)
    (hwf : ∀ r ∈ g.rows, r.geom.isSome = true)
    (hnone : ∀ r ∈ g.rows, recContains r (lo, la) = false) :
    locate (some g) (some sLat) (some sLon) =
      Resp.notFound la lo g.rows.length (availableStates g) := by
  rw [locate_valid g hla hlo hr]
  exact resolve_notFound g la lo hwf hnone

/-- Claim C5, counterexample to the claim as stated: the store gA labels
its record through the ST_NM alias, so the normalized state values are
nonempty, yet the not-found answer carries the empty available list because
no raw shape1 column exists. -/
theorem spec_C5_cex :
    locate (some gA) (some "50") (some "50") = Resp.notFound 50 50 1 [] ∧
    specAvailableValues gA = ["Alpha"] ∧
    ([] : List String) ≠ ["Alpha"] := by decide

/-- Claim C5, witness: the amended theorem applied to the store gS, which
does carry a shape1 column, at a point outside its polygon. -/
theorem spec_C5_witness :
    locate (some gS) (some "50") (some "50") =
      Resp.notFound 50 50 1 ["Alpha"] := by
  have h := spec_C5 gS "50" "50" 50 50 (by decide) (by decide) (by decide)
    (by decide) (by decide)
  rw [h]
  decide

/-- Claim C6, corrected. For valid in-range input against a store whose
records are all well formed the query terminates with success or not-found;
but when the store holds a malformed record, valid input reaches the
internal error outcome, so the claim as stated over every loaded store
fails. Amended: restricted to stores with well-formed geometries, valid
input always yields exactly success or not-found. -/
theorem spec_C6 (g : GeoDataFrame) (latArg lonArg : Option String)
    (vLat vLon : PyFloat)
    (hp : parseArgs latArg lonArg = some (vLat, vLon))
    (hr : rangeBad vLat vLon = false)
    (hwf : ∀ r ∈ g.rows, r.geom.isSome = true) :
    isSuccessOrNotFound (locate (some g) latArg lonArg) = true := by
  rw [locate_parsed g _ _ hp, hr]
  simp only [Bool.false_eq_true, if_false]
  unfold resolvePoint
  rw [gdfContains_wf g.rows _ hwf]
  cases g.rows.filter (fun r => recContains r (pyToRat vLon, pyToRat vLat)) with
  | nil => rfl
  | cons r tl => rfl

/-- Claim C6, counterexample to the claim as stated: valid input against
the loaded store gBad1, whose record is malformed, answers the internal
error outcome, which is neither success nor not-found. -/
theorem spec_C6_cex :
    locate (some gBad1) (some "1") (some "2") = Resp.internalError ∧
    isSuccessOrNotFound Resp.internalError = false := by decide

/-- Claim C6, witness: the amended theorem applied to the well-formed store
gA at the valid point (lat 7, lon 7). -/
theorem spec_C6_witness :
    isSuccessOrNotFound (locate (some gA) (some "7") (some "7")) = true :=
  spec_C6 gA (some "7") (some "7") (PyFloat.finite 7) (PyFloat.finite 7)
    (by decide) (by decide) (by decide)

/-- Claim C7, confirmed. When the record at index i contains the point and
no earlier record does, the query answers success assembled from record i:
the first containing record in insertion order, hence the smallest
insertion id among all containing records, wins. -/
theorem spec_C7 (g : GeoDataFrame) (sLat sLon : String) (la lo : ℚ) (i : ℕ)
    (hla : pyFloat sLat = some (PyFloat.finite la))
    (hlo : pyFloat sLon = some (PyFloat.finite lo))
    (hr : rangeBad (PyFloat.finite la) (PyFloat.finite lo) = false)
    (hwf : ∀ r ∈ g.rows, r.geom.isSome = true)
    (hi : i < g.rows.length)
    (hc : recContains (g.rows.get ⟨i, hi⟩) (lo, la) = true)
    (hmin : ∀ j (hj : j < i),
        recContains (g.rows.get ⟨j, Nat.lt_trans hj hi⟩) (lo, la) = false) :
    locate (some g) (some sLat) (some sLon) =
      Resp.success la lo (buildFields (g.rows.get ⟨i, hi⟩).attrs) := by
  rw [locate_valid g hla hlo hr]
  unfold resolvePoint
  rw [gdfContains_wf g.rows (lo, la) hwf]
  obtain ⟨tl, htl⟩ :=
    filter_head_minimal g.rows (fun r => recContains r (lo, la)) i hi hc hmin
  rw [htl]

/-- Claim C7, witness: in store gAB the point (lat 2, lon 2) is contained
in both squares and the answer is assembled from the first record. -/
theorem spec_C7_witness :
    locate (some gAB) (some "2") (some "2") =
      Resp.success 2 2 [("state", "Alpha")] ∧
    recContains recA (2, 2) = true ∧ recContains recB (2, 2) = true := by
  refine ⟨?_, by decide, by decide⟩
  have h := spec_C7 gAB "2" "2" 2 2 0 (by decide) (by decide) (by decide)
    (by decide) (by decide) (by decide)
    (fun j hj => absurd hj (Nat.not_lt_zero j))
  rw [h]
  decide

/-- Claim C8, corrected. app.py has no spatial index: the candidate set
consulted before exact containment is always the full insertion-ordered id
range, which is trivially a superset of the containing ids and never fails,
but for a point outside all bounding boxes it is the full range rather than
an empty sequence. Amended: the candidate sequence is the full id range for
every point; for a valid point outside the bounding box of every loaded
polygon (with closed rings), exact containment then rejects every candidate
and the query answers not-found without failing. -/
theorem spec_C8 :
    (∀ (g : GeoDataFrame) (p : Pt) (i : ℕ) (r : PolyRecord) (poly : Poly),
        g.rows[i]? = some r → r.geom = some poly →
        polyContains poly p = true → i ∈ candidates g p) ∧
    (∀ (g : GeoDataFrame) (p : Pt), candidates g p = List.range g.rows.length) ∧
    (∀ (g : GeoDataFrame) (sLat sLon : String) (la lo : ℚ),
        pyFloat sLat = some (PyFloat.finite la) →
        pyFloat sLon = some (PyFloat.finite lo) →
        rangeBad (PyFloat.finite la) (PyFloat.finite lo) = false →
        (∀ r ∈ g.rows, ∃ poly, r.geom = some poly ∧
            (∀ rg ∈ poly, rg.head? = rg.getLast?) ∧
            inBBox (lo, la) (polyBBox poly) = false) →
        locate (some g) (some sLat) (some sLon) =
          Resp.notFound la lo g.rows.length (availableStates g)) := by
  refine ⟨?_, fun g p => rfl, ?_⟩
  · intro g p i r poly hget hgeom hcont
    exact List.mem_range.mpr (List.getElem?_eq_some_iff.mp hget).1
  · intro g sLat sLon la lo hla hlo hr hbb
    rw [locate_valid g hla hlo hr]
    have hwf : ∀ r ∈ g.rows, r.geom.isSome = true := by
      intro r hr2
      obtain ⟨poly, hp, _, _⟩ := hbb r hr2
      simp [hp]
    have hnone : ∀ r ∈ g.rows, recContains r (lo, la) = false := by
      intro r hr2
      obtain ⟨poly, hp, hcl, hout⟩ := hbb r hr2
      simp [recContains, hp, bbox_prune poly (lo, la) hcl hout]
    exact resolve_notFound g la lo hwf hnone

/-- Claim C8, counterexample to the claim as stated: the point (10, 10)
lies outside the bounding box of the only polygon of store gA, yet the
candidate sequence consulted is the full id range, not the empty
sequence. -/
theorem spec_C8_cex :
    inBBox (10, 10) (polyBBox [sqRing]) = false ∧
    candidates gA (10, 10) = [0] ∧
    ([0] : List ℕ) ≠ [] := by decide

/-- Claim C8, witness: the amended theorem applied to store gA at the valid
point (lat 9, lon 9) outside its only bounding box. -/
theorem spec_C8_witness :
    locate (some gA) (some "9") (some "9") = Resp.notFound 9 9 1 [] := by
  have h := spec_C8.2.2 gA "9" "9" 9 9 (by decide) (by decide) (by decide)
    (by
      intro r hr
      have hrA : r = recA := by simpa [gA] using hr
      subst hrA
      exact ⟨[sqRing], rfl, by decide, by decide⟩)
  rw [h]
  decide

/-- Claim C9, confirmed. The query is a pure function of the loaded store
and the two request arguments: two executions with equal arguments against
the same store return the same outcome and payload. -/
theorem spec_C9 (gdf : Option GeoDataFrame)
    (latArg lonArg latArg2 lonArg2 : Option String)
    (h1 : latArg = latArg2) (h2 : lonArg = lonArg2) :
    locate gdf latArg lonArg = locate gdf latArg2 lonArg2 := by
  rw [h1, h2]

/-- Claim C9, witness: two identical concrete queries against gA coincide. -/
theorem spec_C9_witness :
    locate (some gA) (some "2") (some "2") =
      locate (some gA) (some "2") (some "2") :=
  spec_C9 (some gA) (some "2") (some "2") (some "2") (some "2") rfl rfl

/-- Claim C10, confirmed. Arguments that parse to non-finite floats (such
as the strings nan and inf) do not raise: every non-finite value fails the
IEEE interval comparison, so the query answers the out-of-range InvalidInput
outcome through the range-check branch. -/
theorem spec_C10 (g : GeoDataFrame) (sLat sLon : String) (vLat vLon : PyFloat)
    (hla : pyFloat sLat = some vLat) (hlo : pyFloat sLon = some vLon)
    (hnf : vLat.isFinite = false ∨ vLon.isFinite = false) :
    locate (some g) (some sLat) (some sLon) = Resp.outOfRange := by
  rw [locate_parsed g _ _ (parseArgs_some hla hlo), rangeBad_nonfinite hnf]
  simp

/-- Claim C10, witness: the theorem applied to the literal argument strings
nan and 77 against store gA. -/
theorem spec_C10_witness :
    locate (some gA) (some "nan") (some "77") = Resp.outOfRange :=
  spec_C10 gA "nan" "77" PyFloat.nan (PyFloat.finite 77) (by decide)
    (by decide) (Or.inl rfl)

end IIrs
